import Mathlib

/-!
Verification of the SoundMatch recommendation back-end.

This file gives a shallow embedding of the Python source under `Back-end/`
(`spotify_api.py`, `lastfm_api.py`, `recommendation_engine.py`) and proves or
refutes the specification claims about it.

Modelling conventions:
* Python dict fields are `Option`-typed where both "key absent" and
  "key present with `None`" behave alike for the code paths modelled;
  Python truthiness of strings is `pyTruthy` (empty string and `None` falsy).
* Calls to the two external providers are an explicit environment record
  (`Env`); a call that may raise a Python exception at the modelled call site
  is `Except Unit`-valued, a call whose wrapper catches every exception is
  total.
* Thread-pool fan-outs (`ThreadPoolExecutor` + `as_completed`) are modelled
  sequentially in submission order; the claims proved here are insensitive to
  completion order.
* `random.shuffle` is an environment function; theorems that need it to be a
  permutation take that as a hypothesis.
* Python's stable `list.sort(key=…, reverse=True)` is modelled by a stable
  descending insertion sort (`sortByKeyDesc`).
* Float match scores are modelled as rationals.
-/

/-- Python truthiness of an optional string: `None` and `""` are falsy. -/
def pyTruthy : Option String → Bool
  | some s => !s.isEmpty
  | none => false

/-- Models Python `str.lower()` (ASCII case folding suffices for the model). -/
def pyLower (s : String) : String := String.mk (s.data.map Char.toLower)

/-- Models Python `str.strip()`. -/
def pyStrip (s : String) : String :=
  String.mk (((s.data.dropWhile Char.isWhitespace).reverse.dropWhile Char.isWhitespace).reverse)

/-- First-occurrence deduplication; models `list(set(xs))` (the Python set's
iteration order is unspecified; the claims proved here do not depend on it). -/
def dedupFirst : List String → List String
  | [] => []
  | x :: xs => if (dedupFirst xs).contains x then dedupFirst xs else x :: dedupFirst xs

/-- Stable descending insertion of one element; together with `sortByKeyDesc`
this models Python's stable `list.sort(key=k, reverse=True)`. -/
def insertByKeyDesc {α : Type} (k : α → ℚ) (x : α) : List α → List α
  | [] => [x]
  | y :: ys => if k x < k y then y :: insertByKeyDesc k x ys else x :: y :: ys

/-- Stable descending sort by a rational key. -/
def sortByKeyDesc {α : Type} (k : α → ℚ) (l : List α) : List α :=
  l.foldr (insertByKeyDesc k) []

theorem insertByKeyDesc_perm {α : Type} (k : α → ℚ) (x : α) (l : List α) :
    (insertByKeyDesc k x l).Perm (x :: l) := by
  induction l with
  | nil => simp [insertByKeyDesc]
  | cons y ys ih =>
    simp only [insertByKeyDesc]
    split
    · exact ((ih.cons y).trans (List.Perm.swap x y ys))
    · exact List.Perm.refl _

theorem sortByKeyDesc_perm {α : Type} (k : α → ℚ) (l : List α) :
    (sortByKeyDesc k l).Perm l := by
  induction l with
  | nil => simp [sortByKeyDesc]
  | cons x xs ih =>
    simpa [sortByKeyDesc] using (insertByKeyDesc_perm k x (sortByKeyDesc k xs)).trans (ih.cons x)

/-! ## Rate-limited request client (`spotify_api._make_spotify_request`)

The HTTP layer is an oracle mapping the attempt index to the outcome of
`requests.get`.  The function returns the list of sleep durations it performed
(seconds) together with the final outcome (`some` response handed to the
caller, `none` after exhausting retries), mirroring `return response` /
`return None` in the source. -/

/-- An HTTP response as read by `_make_spotify_request`: its status code and
the parsed `Retry-After` header (`none` when the header is absent, in which
case the source defaults to 60). -/
structure HttpResponse where
  status : Nat
  retryAfter : Option Nat
deriving DecidableEq

/-- Outcome of one `requests.get` call inside `_make_spotify_request`. -/
inductive ReqOutcome where
  | resp (r : HttpResponse)
  | timeout
  | reqError
deriving DecidableEq

/-- The retry loop of `_make_spotify_request`: `for attempt in
range(max_retries)`, with `fuel` the number of remaining iterations (so
`fuel = maxRetries - attempt` throughout).  On 429 it sleeps `Retry-After`
(default 60) and continues; on timeout or transport error it sleeps
`2 ^ attempt` and continues unless this was the last attempt; any other
response is returned to the caller at once. -/
def msrGo (oracle : Nat → ReqOutcome) (maxRetries : Nat) :
    Nat → Nat → List Nat × Option HttpResponse
  | 0, _ => ([], none)
  | fuel + 1, attempt =>
    match oracle attempt with
    | .resp r =>
      if r.status = 429 then
        let rest := msrGo oracle maxRetries fuel (attempt + 1)
        (r.retryAfter.getD 60 :: rest.1, rest.2)
      else ([], some r)
    | .timeout =>
      if attempt < maxRetries - 1 then
        let rest := msrGo oracle maxRetries fuel (attempt + 1)
        (2 ^ attempt :: rest.1, rest.2)
      else ([], none)
    | .reqError =>
      if attempt < maxRetries - 1 then
        let rest := msrGo oracle maxRetries fuel (attempt + 1)
        (2 ^ attempt :: rest.1, rest.2)
      else ([], none)

/-- `_make_spotify_request(url, headers, params, max_retries)`: the sleep trace
and the value returned to the caller (`none` models `return None`). -/
def make_spotify_request (oracle : Nat → ReqOutcome) (maxRetries : Nat) :
    List Nat × Option HttpResponse :=
  msrGo oracle maxRetries maxRetries 0

/-! ## Track normalizer (`spotify_api.normalize_track`) -/

/-- An artist object inside a track's `artists` list, holding the fields the
source reads (`id`, `name`); `none` models an absent key. -/
structure ArtistRef where
  id : Option String
  name : Option String
deriving DecidableEq

/-- One entry of an album's `images` list (the source reads only `url`). -/
structure ImageRef where
  url : Option String
deriving DecidableEq

/-- A raw provider track record, modelled by exactly the features
`normalize_track` reads.  `album` is `none` when the album key is absent,
`None`, not a dict, or a dict whose `images` is absent — all of which make the
image lookup fail alike — and `some imgs` when it is a dict with an `images`
list.  `external_urls` is `none` for an absent or falsy dict and `some sp`
for a truthy dict whose `spotify` entry is `sp`.  `name` distinguishes an
absent key (outer `none`) from a key present with `None` (inner `none`). -/
structure RawTrack where
  id : Option String
  name : Option (Option String)
  artist : Option String
  artists : Option (List ArtistRef)
  album : Option (List ImageRef)
  image_url : Option String
  preview_url : Option String
  spotify_url : Option String
  external_urls : Option (Option String)
  popularity : Option Int
deriving DecidableEq

/-- The normalized track shape produced by `normalize_track`. -/
structure NormTrack where
  id : String
  name : Option String
  artist : String
  artists : List ArtistRef
  album : Option (List ImageRef)
  image_url : Option String
  preview_url : Option String
  spotify_url : Option String
  external_urls : Option (Option String)
  popularity : Int
deriving DecidableEq

/-- The `elif track.get('artists')` arm of the artist-string extraction: the
artist-object names joined with `", "` when the list is truthy, else
`"Unknown Artist"`. -/
def artistStringFromList : Option (List ArtistRef) → String
  | some l =>
    if l.isEmpty then "Unknown Artist"
    else String.intercalate ", " (l.map (fun a => a.name.getD "Unknown Artist"))
  | none => "Unknown Artist"

/-- The artist-string extraction of `normalize_track`: a truthy flat `artist`
field wins; else `artistStringFromList`. -/
def artistStringOf (artist : Option String) (artists : Option (List ArtistRef)) : String :=
  match artist with
  | some s => if s.isEmpty then artistStringFromList artists else s
  | none => artistStringFromList artists

/-- The image-URL extraction of `normalize_track`: a truthy flat `image_url`
wins; else the first album image's `url` when the album has a truthy `images`
list; else the original (falsy) value is kept. -/
def imageUrlOf (imageUrl : Option String) (album : Option (List ImageRef)) : Option String :=
  if pyTruthy imageUrl then imageUrl
  else
    match album with
    | some (img :: _) => img.url
    | _ => imageUrl

/-- The Spotify-URL extraction of `normalize_track`: a truthy flat
`spotify_url` wins; else the `spotify` entry of a truthy `external_urls`
dict; else the original (falsy) value is kept. -/
def spotifyUrlOf (spotifyUrl : Option String) (externalUrls : Option (Option String)) :
    Option String :=
  if pyTruthy spotifyUrl then spotifyUrl
  else
    match externalUrls with
    | some sp => sp
    | none => spotifyUrl

/-- `spotify_api.normalize_track`: `none` for a record without a truthy id,
else the canonical record. -/
def normalize_track (track : RawTrack) : Option NormTrack :=
  match track.id with
  | none => none
  | some i =>
    if i.isEmpty then none
    else
      some
        { id := i
          name := match track.name with | none => some "Unknown Track" | some v => v
          artist := artistStringOf track.artist track.artists
          artists := track.artists.getD []
          album := track.album
          image_url := imageUrlOf track.image_url track.album
          preview_url := track.preview_url
          spotify_url := spotifyUrlOf track.spotify_url track.external_urls
          external_urls := track.external_urls
          popularity := track.popularity.getD 0 }

/-- The raw record corresponding to an already-normalized track: every key is
present, holding the normalized value (this is what feeding the output dict of
`normalize_track` back into it looks like). -/
def normToRaw (t : NormTrack) : RawTrack :=
  { id := some t.id
    name := some t.name
    artist := some t.artist
    artists := some t.artists
    album := t.album
    image_url := t.image_url
    preview_url := t.preview_url
    spotify_url := t.spotify_url
    external_urls := t.external_urls
    popularity := some t.popularity }

theorem imageUrlOf_idem (x : Option String) (alb : Option (List ImageRef)) :
    imageUrlOf (imageUrlOf x alb) alb = imageUrlOf x alb := by
  unfold imageUrlOf
  by_cases h : pyTruthy x
  · simp [h]
  · simp only [h, Bool.false_eq_true, if_false]
    cases alb with
    | none => simp [h]
    | some l =>
      cases l with
      | nil => simp [h]
      | cons img rest =>
        by_cases h2 : pyTruthy img.url
        · simp [h2]
        · simp [h2]

theorem spotifyUrlOf_idem (x : Option String) (e : Option (Option String)) :
    spotifyUrlOf (spotifyUrlOf x e) e = spotifyUrlOf x e := by
  unfold spotifyUrlOf
  by_cases h : pyTruthy x
  · simp [h]
  · simp only [h, Bool.false_eq_true, if_false]
    cases e with
    | none => simp [h]
    | some sp =>
      by_cases h2 : pyTruthy sp
      · simp [h2]
      · simp [h2]

theorem artistStringOf_some (s : String) (ars : Option (List ArtistRef)) :
    artistStringOf (some s) ars = if s.isEmpty then artistStringFromList ars else s := rfl

theorem artistStringOf_idem (a : Option String) (ars : Option (List ArtistRef)) :
    artistStringOf (some (artistStringOf a ars)) (some (ars.getD [])) =
      artistStringOf a ars := by
  rw [artistStringOf_some]
  by_cases h : (artistStringOf a ars).isEmpty
  · rw [if_pos h]
    cases ars with
    | none =>
      exfalso
      cases a with
      | none =>
        simp [artistStringOf, artistStringFromList] at h
        exact absurd h (by decide)
      | some s =>
        by_cases hs : s.isEmpty
        · simp [artistStringOf, artistStringFromList, hs] at h
          exact absurd h (by decide)
        · rw [show artistStringOf (some s) none = s from by
            simp [artistStringOf, artistStringFromList, hs]] at h
          exact absurd h (by simpa using hs)
    | some l =>
      cases a with
      | none => simp [artistStringOf, Option.getD_some]
      | some s =>
        by_cases hs : s.isEmpty
        · simp [artistStringOf, hs, Option.getD_some]
        · rw [show artistStringOf (some s) (some l) = s from by
            simp [artistStringOf, hs]] at h
          exact absurd h (by simpa using hs)
  · rw [if_neg h]

/-- C7: idempotent normalization — for every raw track record with a truthy
id that `normalize_track` accepts, feeding the normalized record back into
`normalize_track` returns the very same record (same id, name, artist string,
artists, album, image_url, preview_url, spotify_url, external_urls and
popularity). -/
theorem normalize_track_idempotent (r : RawTrack) (t : NormTrack)
    (h : normalize_track r = some t) :
    normalize_track (normToRaw t) = some t := by
  unfold normalize_track at h
  cases hid : r.id with
  | none => rw [hid] at h; exact absurd h (by simp)
  | some i =>
    rw [hid] at h
    dsimp only at h
    by_cases hi : i.isEmpty
    · rw [if_pos hi] at h; exact absurd h (by simp)
    · rw [if_neg hi] at h
      obtain rfl : _ = t := Option.some.inj h
      unfold normalize_track normToRaw
      simp only [Option.getD_some]
      rw [if_neg hi]
      simp [artistStringOf_idem, imageUrlOf_idem, spotifyUrlOf_idem]

/-- A sample raw track record used to witness C7. -/
def sampleRaw : RawTrack :=
  { id := some "trk1"
    name := some (some "A Song")
    artist := none
    artists := some [{ id := some "art1", name := some "Some Artist" }]
    album := some [{ url := some "http-img" }]
    image_url := none
    preview_url := none
    spotify_url := none
    external_urls := some (some "http-track")
    popularity := some 42 }

/-- A concrete run of C7: `sampleRaw` normalizes to a record, and normalizing
that record again returns it unchanged. -/
theorem normalize_track_idempotent_witness :
    normalize_track (normToRaw
        { id := "trk1"
          name := some "A Song"
          artist := "Some Artist"
          artists := [{ id := some "art1", name := some "Some Artist" }]
          album := some [{ url := some "http-img" }]
          image_url := some "http-img"
          preview_url := none
          spotify_url := some "http-track"
          external_urls := some (some "http-track")
          popularity := 42 }) =
      some
        { id := "trk1"
          name := some "A Song"
          artist := "Some Artist"
          artists := [{ id := some "art1", name := some "Some Artist" }]
          album := some [{ url := some "http-img" }]
          image_url := some "http-img"
          preview_url := none
          spotify_url := some "http-track"
          external_urls := some (some "http-track")
          popularity := 42 } :=
  normalize_track_idempotent sampleRaw _ rfl

/-- The oracle of an endpoint that answers HTTP 429 with `Retry-After: 60` on
every attempt. -/
def oracle429 : Nat → ReqOutcome := fun _ => .resp { status := 429, retryAfter := some 60 }

/-- C2 counterexample: with every attempt rate-limited and `Retry-After: 60`,
`_make_spotify_request` sleeps the full 60 seconds on each of its three
attempts — not `min(60, 10) = 10` as the claim states — and then returns
`None` without raising. -/
theorem rate_limit_sleep_uncapped :
    make_spotify_request oracle429 3 = ([60, 60, 60], none) ∧ min 60 10 = 10 ∧
      (60 : Nat) ≠ 10 :=
  ⟨rfl, rfl, by decide⟩

/-- C2 amended: on an HTTP 429 response the client reads `Retry-After`
(defaulting to 60 when absent), sleeps the full value — with no 10-second
cap — and retries, the retry consuming one of the `max_retries` attempts;
the call never raises, finishing with whatever the remaining attempts
produce. -/
theorem rate_limit_429_step (oracle : Nat → ReqOutcome) (maxRetries fuel attempt : Nat)
    (r : HttpResponse) (hr : oracle attempt = .resp r) (h429 : r.status = 429) :
    msrGo oracle maxRetries (fuel + 1) attempt =
      (r.retryAfter.getD 60 :: (msrGo oracle maxRetries fuel (attempt + 1)).1,
        (msrGo oracle maxRetries fuel (attempt + 1)).2) := by
  simp [msrGo, hr, h429]

/-- A concrete run of the amended C2: the first 429 answer makes the client
sleep 60 seconds and spend one attempt. -/
theorem rate_limit_429_step_witness :
    msrGo oracle429 3 3 0 =
      ((({ status := 429, retryAfter := some 60 } : HttpResponse).retryAfter).getD 60 ::
          (msrGo oracle429 3 2 1).1,
        (msrGo oracle429 3 2 1).2) :=
  rate_limit_429_step oracle429 3 2 0 { status := 429, retryAfter := some 60 } rfl rfl

/-! ## Recommendation engine (`recommendation_engine.RecommendationEngine`)

A track as consumed inside the engine is a normalized Spotify record; the
engine reads only its `id`, `artists` (`none` models a missing or non-list
`artists` value, mirroring the `isinstance` guard), `preview_url`, and the
`lastfm_match` score it writes itself. -/

/-- A track dict flowing through the recommendation engine. -/
structure Track where
  id : Option String
  artists : Option (List ArtistRef)
  previewUrl : Option String
  lastfmMatch : Option ℚ
deriving DecidableEq

/-- The truthy artist ids of a track: `[a.get('id') for a in track['artists']
if isinstance(a, dict) and a.get('id')]`. -/
def trackArtistIds (t : Track) : List String :=
  match t.artists with
  | some l =>
    l.filterMap (fun a =>
      match a.id with
      | some i => if i.isEmpty then none else some i
      | none => none)
  | none => []

/-- A similar-artist record from `lastfm_api.get_similar_artists` (the engine
reads `name` and `match`). -/
structure SimilarArtist where
  name : String
  matchScore : ℚ
deriving DecidableEq

/-- A similar-track record from `lastfm_api.get_similar_tracks`. -/
structure SimilarTrack where
  name : String
  artist : String
  matchScore : ℚ
deriving DecidableEq

/-- A top-track record from `lastfm_api.get_artist_top_tracks` (the engine
reads only `name`). -/
structure LfmTrack where
  name : String
deriving DecidableEq

/-- A tag record from `lastfm_api.get_artist_tags` (the engine reads only
`name`). -/
structure TagInfo where
  name : String
deriving DecidableEq

/-- A tag-top-artist record from `lastfm_api.get_tag_top_artists` (the engine
reads only `name`). -/
structure TagArtist where
  name : String
deriving DecidableEq

/-- The artist object returned by `spotify_api.get_artist_info` (the engine
reads only `name`). -/
structure ArtistInfo where
  name : Option String
deriving DecidableEq

/-- The provider calls made by the engine.  A field is `Except Unit`-valued
when the Python call can raise at that call site (for example malformed JSON
in `search_tracks`, or the uncaught `int`/`float` conversions in
`lastfm_api`); it is total when the wrapper catches every exception
(`get_artist_info`, the preview fetch, `get_artist_genres`). -/
structure Env where
  getArtistInfo : String → Option ArtistInfo
  getSimilarArtists : String → Nat → Except Unit (List SimilarArtist)
  getLastfmTopTracks : String → Nat → Except Unit (List LfmTrack)
  searchTracks : String → Nat → Except Unit (List Track)
  fetchPreview : String → Option String
  getTrack : String → Except Unit (Option (String × String))
  getSimilarTracks : String → String → Nat → Except Unit (List SimilarTrack)
  getArtistTags : String → Nat → Except Unit (List TagInfo)
  getTagTopArtists : String → Nat → Except Unit (List TagArtist)
  spotifyRecs : List String → List String → Nat → Except Unit (List Track)
  getArtistGenres : String → List String
  shuffle : List Track → List Track

/-- The shared accumulation state of the merge loops: the ordered
recommendation list and the `seen_track_ids` set. -/
structure MergeSt where
  recs : List Track
  seen : List String
deriving DecidableEq

/-- The `get_artist_name` helper: the artist's name via Spotify, `""` on any
failure. -/
def get_artist_name (env : Env) (artistId : String) : String :=
  match env.getArtistInfo artistId with
  | some info => info.name.getD ""
  | none => ""

/-- Resolution of the first three seed artist ids to non-empty display names
(the thread-pool fan-out, in submission order). -/
def artistNamesOf (env : Env) (seedArtists : List String) : List String :=
  ((seedArtists.take 3).map (get_artist_name env)).filter (fun n => !n.isEmpty)

/-- The preview-URL top-up inside `get_tracks_from_similar`: when the track
has no truthy preview URL, fetch one; keep it only when truthy.  The fetch
swallows every exception (`except: pass`), so it is total. -/
def fetchPreviewIfMissing (env : Env) (t : Track) : Track :=
  if pyTruthy t.previewUrl then t
  else
    match env.fetchPreview (t.id.getD "") with
    | some u => if u.isEmpty then t else { t with previewUrl := some u }
    | none => t

/-- The `for track in spotify_tracks` loop of `get_tracks_from_similar`: the
first search hit with a truthy id whose artist ids avoid the seed artists is
accepted (with preview top-up and the originating `match` score), ending the
loop; others are skipped. -/
def pickFirstNonSeed (env : Env) (seedArtists : List String) (matchScore : ℚ) :
    List Track → Option Track
  | [] => none
  | t :: rest =>
    if !(pyTruthy t.id) then pickFirstNonSeed env seedArtists matchScore rest
    else if (trackArtistIds t).any (fun aid => seedArtists.contains aid) then
      pickFirstNonSeed env seedArtists matchScore rest
    else some { fetchPreviewIfMissing env t with lastfmMatch := some matchScore }

/-- One top track of a similar artist, resolved through Spotify search and
appended when the first qualifying hit exists (the `for track_info in
lastfm_tracks` loop body of `get_tracks_from_similar`). -/
def similar_fold_step (env : Env) (seedArtists : List String) (similar : SimilarArtist)
    (acc : List Track) (ti : LfmTrack) : Except Unit (List Track) :=
  if ti.name.isEmpty then pure acc
  else do
    let found ← env.searchTracks (ti.name ++ " " ++ similar.name) 2
    match pickFirstNonSeed env seedArtists similar.matchScore found with
    | some t => pure (acc ++ [t])
    | none => pure acc

/-- The body of `get_tracks_from_similar` inside its `try`: top tracks of the
similar artist, each resolved through Spotify search; an exception anywhere
discards the whole batch (the `except` returns `[]`). -/
def get_tracks_from_similar_body (env : Env) (seedArtists : List String)
    (tracksPerArtist : Nat) (similar : SimilarArtist) : Except Unit (List Track) := do
  let lfm ← env.getLastfmTopTracks similar.name tracksPerArtist
  lfm.foldlM (similar_fold_step env seedArtists similar) []

/-- `get_tracks_from_similar`: skipped entirely when the similar artist's name
case-insensitively equals the name of the seed artist currently being
processed (and only that one); otherwise the `try` body with `[]` on
exception. -/
def get_tracks_from_similar (env : Env) (seedArtists : List String) (artistName : String)
    (tracksPerArtist : Nat) (similar : SimilarArtist) : List Track :=
  if pyLower similar.name = pyLower artistName then []
  else
    match get_tracks_from_similar_body env seedArtists tracksPerArtist similar with
    | .error _ => []
    | .ok ts => ts

/-- `process_artist`: similar artists of one resolved seed name, sorted by
descending match, truncated to the fan-out width, each contributing its
resolved top tracks (inner pool modelled in submission order). -/
def process_artist (env : Env) (seedArtists : List String) (expandSearch : Bool)
    (artistName : String) : List Track :=
  match env.getSimilarArtists artistName (if expandSearch then 20 else 10) with
  | .error _ => []
  | .ok similarArtists =>
    if similarArtists.isEmpty then []
    else
      let sorted := sortByKeyDesc SimilarArtist.matchScore similarArtists
      let artistsToUse := sorted.take (if expandSearch then 15 else 8)
      let tracksPerArtist := if expandSearch then 8 else 5
      artistsToUse.flatMap (get_tracks_from_similar env seedArtists artistName tracksPerArtist)

/-- One inner merge loop: append each track with a truthy, unseen id, stopping
once `limit` recommendations are reached (the length test runs after each
append, as in the source). -/
def add_tracks_capped (limit : Nat) : MergeSt → List Track → MergeSt
  | st, [] => st
  | st, t :: rest =>
    if pyTruthy t.id && !st.seen.contains (t.id.getD "") then
      let st' : MergeSt := ⟨st.recs ++ [t], t.id.getD "" :: st.seen⟩
      if limit ≤ st'.recs.length then st' else add_tracks_capped limit st' rest
    else add_tracks_capped limit st rest

/-- The outer merge loop over the per-future lists (`as_completed`, modelled
in submission order), breaking between lists once `limit` is reached. -/
def add_lists_capped (limit : Nat) : MergeSt → List (List Track) → MergeSt
  | st, [] => st
  | st, l :: ls =>
    let st' := add_tracks_capped limit st l
    if limit ≤ st'.recs.length then st' else add_lists_capped limit st' ls

/-- The `for track in spotify_tracks` loop of the similar-tracks path: the
first hit with a truthy, unseen id is appended (tagged with the `match`
score) and the loop breaks; note there is no seed-artist filter here. -/
def addFirstUnseen (st : MergeSt) (m : ℚ) : List Track → MergeSt
  | [] => st
  | t :: rest =>
    if pyTruthy t.id && !st.seen.contains (t.id.getD "") then
      ⟨st.recs ++ [{ t with lastfmMatch := some m }], t.id.getD "" :: st.seen⟩
    else addFirstUnseen st m rest

/-- The `for similar in tracks_to_use` loop of the similar-tracks path; a
search exception aborts the current seed track's loop, keeping what was
already appended. -/
def seed_track_sim_inner (env : Env) (limit : Nat) : MergeSt → List SimilarTrack → MergeSt
  | st, [] => st
  | st, s :: rest =>
    if limit ≤ st.recs.length then st
    else if s.name.isEmpty || s.artist.isEmpty then seed_track_sim_inner env limit st rest
    else
      match env.searchTracks (s.name ++ " " ++ s.artist) 3 with
      | .error _ => st
      | .ok found => seed_track_sim_inner env limit (addFirstUnseen st s.matchScore found) rest

/-- One iteration of the similar-tracks path (strategy 2 of
`_get_lastfm_recommendations`) for one seed track id; the whole body is inside
a `try`, so any exception keeps the state reached so far. -/
def seed_track_sim_step (env : Env) (limit : Nat) (expandSearch : Bool) (st : MergeSt)
    (trackId : String) : MergeSt :=
  if limit ≤ st.recs.length then st
  else
    match env.getTrack trackId with
    | .error _ => st
    | .ok none => st
    | .ok (some (trackName, artistName)) =>
      if trackName.isEmpty || artistName.isEmpty then st
      else
        match env.getSimilarTracks trackName artistName (if expandSearch then 15 else 10) with
        | .error _ => st
        | .ok similars =>
          seed_track_sim_inner env limit st (similars.take (if expandSearch then 10 else 5))

/-- The non-genre tag blacklist of `_get_genre_based_recommendations`. -/
def nonGenreTags : List String := ["seen live", "favorites", "favourite", "seen", "live", "my music"]

/-- The `for track in spotify_tracks` loop of `get_tracks_from_genre_artist`:
first hit with a truthy id whose artist ids avoid the seed artists (no
preview top-up and no match tag on this path). -/
def pickFirstNonSeedPlain (seedArtists : List String) : List Track → Option Track
  | [] => none
  | t :: rest =>
    if !(pyTruthy t.id) then pickFirstNonSeedPlain seedArtists rest
    else if (trackArtistIds t).any (fun aid => seedArtists.contains aid) then
      pickFirstNonSeedPlain seedArtists rest
    else some t

/-- One top track of a tag's top artist, resolved through Spotify search (the
`for track_info in lastfm_tracks` loop body of
`get_tracks_from_genre_artist`). -/
def genre_artist_fold_step (env : Env) (seedArtists : List String) (artistName : String)
    (acc : List Track) (ti : LfmTrack) : Except Unit (List Track) :=
  if ti.name.isEmpty then pure acc
  else do
    let found ← env.searchTracks (ti.name ++ " " ++ artistName) 2
    match pickFirstNonSeedPlain seedArtists found with
    | some t => pure (acc ++ [t])
    | none => pure acc

/-- The body of `get_tracks_from_genre_artist` inside its `try`. -/
def tracks_from_genre_artist_body (env : Env) (seedArtists : List String) (expandSearch : Bool)
    (artistName : String) : Except Unit (List Track) := do
  let lfm ← env.getLastfmTopTracks artistName (if expandSearch then 5 else 3)
  lfm.foldlM (genre_artist_fold_step env seedArtists artistName) []

/-- `get_tracks_from_genre_artist`: `[]` for a nameless artist or on
exception. -/
def get_tracks_from_genre_artist (env : Env) (seedArtists : List String) (expandSearch : Bool)
    (artistInfo : TagArtist) : List Track :=
  if artistInfo.name.isEmpty then []
  else
    match tracks_from_genre_artist_body env seedArtists expandSearch artistInfo.name with
    | .error _ => []
    | .ok ts => ts

/-- `process_genre`: top artists of one tag, each contributing its resolved
top tracks; `[]` on exception. -/
def process_genre (env : Env) (seedArtists : List String) (expandSearch : Bool)
    (tag : String) : List Track :=
  match env.getTagTopArtists tag (if expandSearch then 20 else 10) with
  | .error _ => []
  | .ok topArtists =>
    (topArtists.take (if expandSearch then 10 else 5)).flatMap
      (get_tracks_from_genre_artist env seedArtists expandSearch)

/-- The tag-collection loop of `_get_genre_based_recommendations`; the
`get_artist_tags` calls are NOT inside any `try`, so an exception propagates
(losing the tags collected so far). -/
def collect_artist_tags (env : Env) (tagsPerArtist : Nat) (artistsToCheck : List String) :
    Except Unit (List String) :=
  artistsToCheck.foldlM
    (fun acc an => do
      let tags ← env.getArtistTags an tagsPerArtist
      pure (acc ++
        (tags.map (fun tg => pyLower tg.name)).filter
          (fun n => !n.isEmpty && !nonGenreTags.contains n)))
    []

/-- `_get_genre_based_recommendations`: tags of the first resolved artist
names, deduplicated and truncated, each processed into candidates and merged
with the cap. -/
def genre_based_recsE (env : Env) (artistNames seedArtists : List String) (limit : Nat)
    (expandSearch : Bool) : Except Unit (List Track) := do
  let artistsToCheck := artistNames.take (if expandSearch then 3 else 2)
  let tagsPerArtist := if expandSearch then 8 else 5
  let allTags ← collect_artist_tags env tagsPerArtist artistsToCheck
  let uniqueTags := (dedupFirst allTags).take (if expandSearch then 5 else 3)
  if uniqueTags.isEmpty then pure []
  else
    pure (add_lists_capped limit ⟨[], []⟩
      (uniqueTags.map (process_genre env seedArtists expandSearch))).recs

/-- The uncapped merge of the genre-based tracks into the cascade state
(lines with no length break in the source). -/
def add_tracks_uncapped (st : MergeSt) (ts : List Track) : MergeSt :=
  ts.foldl
    (fun st t =>
      if pyTruthy t.id && !st.seen.contains (t.id.getD "") then
        ⟨st.recs ++ [t], t.id.getD "" :: st.seen⟩
      else st)
    st

/-- `_get_lastfm_recommendations`: the three-step cascade (similar artists,
similar tracks, tag-based), sorted by descending `lastfm_match` and truncated
to `limit`.  Only the tag-collection step can raise out of the method. -/
def lastfm_recsE (env : Env) (seedArtists seedTracks : List String) (limit : Nat)
    (expandSearch : Bool) : Except Unit (List Track) := do
  let artistNames := artistNamesOf env seedArtists
  let st1 :=
    if artistNames.length > 0 then
      add_lists_capped limit ⟨[], []⟩
        (artistNames.map (process_artist env seedArtists expandSearch))
    else ⟨[], []⟩
  let maxSeedTracks := if expandSearch then 5 else 3
  let st2 :=
    if !seedTracks.isEmpty && st1.recs.length < limit then
      (seedTracks.take maxSeedTracks).foldl (seed_track_sim_step env limit expandSearch) st1
    else st1
  let st3 ←
    if (expandSearch || st2.recs.length < limit) && !artistNames.isEmpty then do
      let genreLimit :=
        if expandSearch then (limit - st2.recs.length) * 2 else limit - st2.recs.length
      let genreTracks ← genre_based_recsE env artistNames seedArtists genreLimit expandSearch
      pure (add_tracks_uncapped st2 genreTracks)
    else pure st2
  pure ((sortByKeyDesc (fun t => t.lastfmMatch.getD 0) st3.recs).take limit)

/-- The literal `category_map` lookup of `_get_genre_only_recommendations`. -/
def category_map_get (s : String) : String :=
  if s = "pop" then "pop"
  else if s = "rock" then "rock"
  else if s = "hip-hop" then "hip hop"
  else if s = "hip hop" then "hip hop"
  else if s = "electronic" then "electronic"
  else if s = "jazz" then "jazz"
  else if s = "classical" then "classical"
  else if s = "country" then "country"
  else if s = "r-n-b" then "r&b"
  else if s = "r&b" then "r&b"
  else if s = "metal" then "metal"
  else if s = "indie" then "indie"
  else if s = "folk" then "folk"
  else if s = "reggae" then "reggae"
  else s

/-- Genre normalization: `genre.lower().strip()` then the category map. -/
def normalize_genre (g : String) : String := category_map_get (pyStrip (pyLower g))

/-- Adding one additional-query result batch: unique truthy ids only. -/
def add_unique_tracks : List Track × List (Option String) → List Track →
    List Track × List (Option String)
  | st, [] => st
  | st, t :: rest =>
    if pyTruthy t.id && !st.2.contains t.id then
      add_unique_tracks (st.1 ++ [t], t.id :: st.2) rest
    else add_unique_tracks st rest

/-- One additional search query of `search_genre` (inside its own `try`, so
an exception just moves to the next query). -/
def genre_query_step (env : Env) (tpg : Nat) (st : List Track × List (Option String))
    (q : String) : List Track × List (Option String) :=
  if tpg ≤ st.1.length then st
  else
    match env.searchTracks q (min 20 (tpg - st.1.length)) with
    | .error _ => st
    | .ok more => add_unique_tracks st more

/-- `search_genre`: the base keyword search (truthy ids kept, duplicates
allowed) topped up by the three generated query variants; an exception in the
base search loses the batch. -/
def search_genre (env : Env) (normalizedGenres : List String) (limit : Nat)
    (expandSearch : Bool) (genreName : String) : List Track :=
  let tpg0 := if normalizedGenres.isEmpty then limit else limit / normalizedGenres.length + 10
  let tpg := if expandSearch then tpg0 * 2 else tpg0
  match env.searchTracks genreName (min tpg 50) with
  | .error _ => []
  | .ok searchResults =>
    let base := searchResults.filter (fun t => pyTruthy t.id)
    if base.length < tpg then
      ([genreName ++ " music", "popular " ++ genreName, "best " ++ genreName].foldl
        (genre_query_step env tpg) (base, base.map (fun t => t.id))).1
    else base

/-- `_get_genre_only_recommendations`: normalized genres searched in parallel
(submission order), merged with the cap, shuffled, truncated. -/
def genre_only_recs (env : Env) (seedGenres : List String) (limit : Nat)
    (expandSearch : Bool) : List Track :=
  let normalizedGenres := (seedGenres.take 5).map normalize_genre
  let merged :=
    if normalizedGenres.length > 0 then
      add_lists_capped limit ⟨[], []⟩
        (normalizedGenres.map (search_genre env normalizedGenres limit expandSearch))
    else ⟨[], []⟩
  (env.shuffle merged.recs).take limit

/-- The per-track loop of `_get_spotify_fallback_recommendations`: dedup
check, then the seed-artist filter, then append with a post-append cap
check. -/
def fallback_add (seedArtists : List String) (limit : Nat) : MergeSt → List Track → MergeSt
  | st, [] => st
  | st, t :: rest =>
    if pyTruthy t.id && !st.seen.contains (t.id.getD "") then
      if (trackArtistIds t).any (fun aid => seedArtists.contains aid) then
        fallback_add seedArtists limit st rest
      else
        let st' : MergeSt := ⟨st.recs ++ [t], t.id.getD "" :: st.seen⟩
        if limit ≤ st'.recs.length then st' else fallback_add seedArtists limit st' rest
    else fallback_add seedArtists limit st rest

/-- One genre of the Spotify fallback (its `try` makes a search exception skip
the genre). -/
def fallback_genre_step (env : Env) (seedArtists : List String) (limit tracksPerGenre : Nat)
    (st : MergeSt) (genre : String) : MergeSt :=
  if limit ≤ st.recs.length then st
  else
    match env.searchTracks ("genre:\"" ++ genre ++ "\" year:2020-2024") tracksPerGenre with
    | .error _ => st
    | .ok tracks => fallback_add seedArtists limit st tracks

/-- `_get_spotify_fallback_recommendations`: genres derived from the seed
artists, deduplicated and truncated, then a year-scoped genre search per
genre with seed-artist filtering. -/
def spotify_fallback_recs (env : Env) (seedArtists : List String) (limit : Nat)
    (expandSearch : Bool) : List Track :=
  let artistsToCheck := seedArtists.take (if expandSearch then 3 else 2)
  let genresPerArtist := if expandSearch then 3 else 2
  let genres0 := artistsToCheck.flatMap (fun aid => (env.getArtistGenres aid).take genresPerArtist)
  let genres := (dedupFirst genres0).take (if expandSearch then 5 else 3)
  let tracksPerGenre := if expandSearch then 40 else 20
  (genres.foldl (fallback_genre_step env seedArtists limit tracksPerGenre) ⟨[], []⟩).recs

/-- The top-up merge of `get_recommendations` (steps 2 and 3 of the artist
branch): `existing_ids` is recomputed from the current list, and a track is
appended when its id is truthy, new, and not excluded — with no cap. -/
def merge_new_aux (excludeIds : List String) : List Track → List (Option String) →
    List Track → List Track
  | acc, _, [] => acc
  | acc, existing, t :: rest =>
    if pyTruthy t.id && !existing.contains t.id && !excludeIds.contains (t.id.getD "") then
      merge_new_aux excludeIds (acc ++ [t]) (t.id :: existing) rest
    else merge_new_aux excludeIds acc existing rest

/-- The top-up merge starting from the current result list. -/
def merge_new (excludeIds : List String) (tracks incoming : List Track) : List Track :=
  merge_new_aux excludeIds tracks (tracks.map (fun t => t.id)) incoming

/-- The exclusion filter `[t for t in … if t.get('id') not in exclude_set]`. -/
def exclude_filter (excludeIds : List String) (ts : List Track) : List Track :=
  ts.filter (fun t =>
    match t.id with
    | some s => !excludeIds.contains s
    | none => true)

/-- The result dict of `get_recommendations`: the track list and the two
source flags (`sources['lastfm']`, `sources['spotify']`). -/
structure RecResult where
  tracks : List Track
  lastfm : Bool
  spotify : Bool
deriving DecidableEq

/-- Step 3 of the artist branch plus the final truncation: the Spotify-search
fallback fires when still short of `limit`; its results are merged (again
without a seed-artist re-check at merge time, though the fallback filters
internally) and the `spotify` flag records whether the fallback returned
anything. -/
def artist_branch_finish (env : Env) (seedArtists : List String) (searchLimit limit : Nat)
    (expandSearch : Bool) (excludeIds : List String) (lastfmFlag : Bool)
    (tracks2 : List Track) : RecResult :=
  if tracks2.length < limit then
    let spotifyTracks := spotify_fallback_recs env seedArtists (searchLimit - tracks2.length)
      expandSearch
    let tracks3 := merge_new excludeIds tracks2 spotifyTracks
    ⟨tracks3.take limit, lastfmFlag, !spotifyTracks.isEmpty⟩
  else ⟨tracks2.take limit, lastfmFlag, false⟩

/-- The body of `RecommendationEngine.get_recommendations` after the
regeneration parameters are fixed.  An `Except.error` of an inner call that
the source does not catch locally lands in the method-level `except`, which
returns the result accumulated so far (note: without the final truncation). -/
def get_recommendations_with (env : Env) (seedArtists seedTracks seedGenres : List String)
    (limit : Nat) (excludeTrackIds : List String) (searchLimit : Nat)
    (expandSearch : Bool) : RecResult :=
  let hasArtists := seedArtists.length > 0
  let hasTracks := seedTracks.length > 0
  let hasGenres := seedGenres.length > 0
  if hasGenres && !hasArtists && !hasTracks then
    let genreRecs := exclude_filter excludeTrackIds
      (genre_only_recs env seedGenres searchLimit expandSearch)
    ⟨(genreRecs.take limit).take limit, !genreRecs.isEmpty, false⟩
  else if hasArtists then
    match lastfm_recsE env seedArtists seedTracks searchLimit expandSearch with
    | .error _ => ⟨[], false, false⟩
    | .ok lastfmTracks0 =>
      let lastfmTracks := exclude_filter excludeTrackIds lastfmTracks0
      let lastfmFlag := !lastfmTracks.isEmpty
      if lastfmTracks.length < limit && hasGenres then
        match env.spotifyRecs (seedArtists.take 5) (seedGenres.take 5)
            (searchLimit - lastfmTracks.length) with
        | .error _ => ⟨lastfmTracks, lastfmFlag, false⟩
        | .ok genreTracks =>
          artist_branch_finish env seedArtists searchLimit limit expandSearch excludeTrackIds
            lastfmFlag (merge_new excludeTrackIds lastfmTracks genreTracks)
      else
        artist_branch_finish env seedArtists searchLimit limit expandSearch excludeTrackIds
          lastfmFlag lastfmTracks
  else if hasTracks then
    match lastfm_recsE env seedArtists seedTracks searchLimit expandSearch with
    | .error _ => ⟨[], false, false⟩
    | .ok lastfmTracks0 =>
      let lastfmTracks := exclude_filter excludeTrackIds lastfmTracks0
      ⟨lastfmTracks.take limit, !lastfmTracks.isEmpty, false⟩
  else ⟨[], false, false⟩

/-- `RecommendationEngine.get_recommendations`: a non-empty
`exclude_track_ids` forces `expand_search = True` and a tripled internal
search limit before the strategies run. -/
def get_recommendations (env : Env) (seedArtists seedTracks seedGenres : List String)
    (limit : Nat) (excludeTrackIds : List String) (expandSearch : Bool) : RecResult :=
  if !excludeTrackIds.isEmpty then
    get_recommendations_with env seedArtists seedTracks seedGenres limit excludeTrackIds
      (limit * 3) true
  else
    get_recommendations_with env seedArtists seedTracks seedGenres limit excludeTrackIds
      limit expandSearch

/-! ## Concrete environments used in counterexamples and witnesses -/

/-- An environment in which every provider call fails (similarity calls and
searches raise, artist lookups return `None`, no genres are known) and the
shuffle is the identity permutation. -/
def envEmpty : Env :=
  { getArtistInfo := fun _ => none
    getSimilarArtists := fun _ _ => .error ()
    getLastfmTopTracks := fun _ _ => .error ()
    searchTracks := fun _ _ => .error ()
    fetchPreview := fun _ => none
    getTrack := fun _ => .error ()
    getSimilarTracks := fun _ _ _ => .error ()
    getArtistTags := fun _ _ => .error ()
    getTagTopArtists := fun _ _ => .error ()
    spotifyRecs := fun _ _ _ => .error ()
    getArtistGenres := fun _ => []
    shuffle := fun l => l }

/-- C9: regeneration mode — whenever `exclude_track_ids` is non-empty,
`get_recommendations` runs its body with the internal search limit set to
`limit * 3` and `expand_search` forced on (whatever the caller passed),
before the per-strategy gathering, exclusion filtering and final truncation
encoded in `get_recommendations_with`. -/
theorem regeneration_mode_params (env : Env) (sa st sg : List String) (limit : Nat)
    (excludeTrackIds : List String) (expandSearch : Bool) (h : excludeTrackIds ≠ []) :
    get_recommendations env sa st sg limit excludeTrackIds expandSearch =
      get_recommendations_with env sa st sg limit excludeTrackIds (limit * 3) true := by
  have h' : excludeTrackIds.isEmpty = false := by
    cases excludeTrackIds with
    | nil => exact absurd rfl h
    | cons a l => rfl
  simp [get_recommendations, h']

/-- A concrete run of C9: one excluded id triples the search limit (5 → 15)
and forces expansion. -/
theorem regeneration_mode_params_witness :
    get_recommendations envEmpty [] [] ["jazz"] 5 ["t1"] false =
      get_recommendations_with envEmpty [] [] ["jazz"] 5 ["t1"] (5 * 3) true :=
  regeneration_mode_params envEmpty [] [] ["jazz"] 5 ["t1"] false (by decide)

/-- A track by an unrelated artist (`Z9`), found when resolving the top track
of the similar artist named `beta`. -/
def trackB : Track :=
  { id := some "B1"
    artists := some [{ id := some "Z9", name := some "Nobody" }]
    previewUrl := some "p"
    lastfmMatch := none }

/-- `trackB` as accepted by the cascade, tagged with the `match` score. -/
def trackB' : Track := { trackB with lastfmMatch := some 1 }

/-- Environment for C8: two seed artists resolving to `Alpha` and `Beta`; the
similar artists of `Alpha` contain one artist named `beta`, whose name
case-insensitively equals the other seed's name. -/
def envC8 : Env :=
  { envEmpty with
    getArtistInfo := fun aid =>
      if aid = "A1" then some { name := some "Alpha" }
      else if aid = "A2" then some { name := some "Beta" }
      else none
    getSimilarArtists := fun n _ =>
      if n = "Alpha" then .ok [{ name := "beta", matchScore := 1 }] else .ok []
    getLastfmTopTracks := fun n _ => if n = "beta" then .ok [{ name := "BSong" }] else .error ()
    searchTracks := fun q _ => if q = "BSong beta" then .ok [trackB] else .error ()
    getArtistTags := fun _ _ => .ok [] }

/-- C8 counterexample: the similar artist `beta` case-insensitively equals the
resolved seed name `Beta` (of the OTHER seed artist), yet its top tracks are
fetched and contribute a candidate that reaches the final result — the code
only compares against the seed artist whose list is being processed. -/
theorem seed_name_exclusion_not_global :
    artistNamesOf envC8 ["A1", "A2"] = ["Alpha", "Beta"] ∧
      pyLower "beta" = pyLower "Beta" ∧
      get_tracks_from_similar envC8 ["A1", "A2"] "Alpha" 5
        { name := "beta", matchScore := 1 } = [trackB'] ∧
      (get_recommendations envC8 ["A1", "A2"] [] [] 5 [] false).tracks = [trackB'] := by
  refine ⟨by decide, by decide, by decide, by decide⟩

/-- C8 amended: in Step C a similar artist is skipped exactly when its name
case-insensitively equals the name of the seed artist whose similar-artist
list is being processed (not any other seed artist); in that case its top
tracks are not fetched and it contributes no candidates. -/
theorem seed_name_exclusion_current_only (env : Env) (seedArtists : List String)
    (artistName : String) (tracksPerArtist : Nat) (similar : SimilarArtist)
    (h : pyLower similar.name = pyLower artistName) :
    get_tracks_from_similar env seedArtists artistName tracksPerArtist similar = [] := by
  unfold get_tracks_from_similar
  rw [if_pos h]

/-- A concrete run of the amended C8: `ALPHA` matches the current seed name
`Alpha` case-insensitively and is skipped. -/
theorem seed_name_exclusion_current_only_witness :
    get_tracks_from_similar envC8 ["A1", "A2"] "Alpha" 5
      { name := "ALPHA", matchScore := 1 } = [] :=
  seed_name_exclusion_current_only envC8 ["A1", "A2"] "Alpha" 5
    { name := "ALPHA", matchScore := 1 } (by decide)

/-- A jazz search hit used in the genre-only scenarios. -/
def trackJ : Track :=
  { id := some "J1", artists := some [], previewUrl := some "p", lastfmMatch := none }

/-- Environment for C3: only the plain `jazz` keyword search returns anything;
every similarity-provider call raises, so the similarity provider cannot have
contributed. -/
def envC3 : Env :=
  { envEmpty with
    searchTracks := fun q _ => if q = "jazz" then .ok [trackJ] else .ok [] }

/-- C3 counterexample: a genre-only call (which only queries the metadata
provider's search — every similarity call in `envC3` raises) returns
`sources.lastfm = true` and `sources.spotify = false`: the flag does not
reflect which provider contributed. -/
theorem genre_only_lastfm_flag_untruthful :
    get_recommendations envC3 [] [] ["jazz"] 5 [] false =
      { tracks := [trackJ], lastfm := true, spotify := false } := by
  decide

/-- C3 amended: for a genre-only call the `spotify` flag is always `false`,
and the `lastfm` flag is set exactly when the metadata-provider genre search
(after exclusion filtering) returned a non-empty list — the code labels
genre-only results as `lastfm` although they come from Spotify search. -/
theorem genre_only_sources (env : Env) (sg : List String) (limit : Nat)
    (ex : List String) (ev : Bool) (hg : sg ≠ []) :
    (get_recommendations env [] [] sg limit ex ev).spotify = false ∧
      ((get_recommendations env [] [] sg limit ex ev).lastfm = true ↔
        exclude_filter ex (genre_only_recs env sg
          (if ex.isEmpty then limit else limit * 3)
          (if ex.isEmpty then ev else true)) ≠ []) := by
  have hg' : sg.length > 0 := by
    cases sg with
    | nil => exact absurd rfl hg
    | cons a l => simp
  cases hex : ex.isEmpty with
  | true =>
    have hexnil : ex = [] := by
      cases ex with
      | nil => rfl
      | cons a l => simp at hex
    subst hexnil
    simp [get_recommendations, get_recommendations_with, hg']
  | false =>
    have hexne : ¬ ex.isEmpty = true := by simp [hex]
    simp [get_recommendations, get_recommendations_with, hg', hex, hexne]

/-- A concrete run of the amended C3: the jazz-only call reports
`lastfm = true` exactly because the Spotify genre search found `trackJ`. -/
theorem genre_only_sources_witness :
    (get_recommendations envC3 [] [] ["jazz"] 5 [] false).spotify = false ∧
      ((get_recommendations envC3 [] [] ["jazz"] 5 [] false).lastfm = true ↔
        exclude_filter [] (genre_only_recs envC3 ["jazz"]
          (if ([] : List String).isEmpty then 5 else 5 * 3)
          (if ([] : List String).isEmpty then false else true)) ≠ []) :=
  genre_only_sources envC3 ["jazz"] 5 [] false (by decide)

/-- A Spotify search hit whose only artist id is the seed artist `A1`. -/
def trackSelf : Track :=
  { id := some "X1"
    artists := some [{ id := some "A1", name := some "Seed Artist" }]
    previewUrl := some "p"
    lastfmMatch := none }

/-- `trackSelf` as accepted by the similar-tracks path. -/
def trackSelf' : Track := { trackSelf with lastfmMatch := some 1 }

/-- Environment for C1: the seed artist id does not resolve to a name (so the
similar-artists path is idle), and the seed track's similar track resolves —
through Spotify search — to a track by the seed artist itself. -/
def envC1 : Env :=
  { envEmpty with
    getTrack := fun tid => if tid = "T1" then .ok (some ("Song", "SeedName")) else .error ()
    getSimilarTracks := fun tn an _ =>
      if tn = "Song" && an = "SeedName" then
        .ok [{ name := "Sim", artist := "OtherA", matchScore := 1 }]
      else .error ()
    searchTracks := fun q _ => if q = "Sim OtherA" then .ok [trackSelf] else .error () }

/-- C1 counterexample: an artist-seeded call (seed-artist set `{A1}`) returns
a track whose artist id is `A1`, added by the similar-tracks path, which
applies no seed-artist filter; no final pass re-applies the filter either. -/
theorem self_recommendation_escape :
    (get_recommendations envC1 ["A1"] ["T1"] [] 5 [] false).tracks = [trackSelf'] ∧
      "A1" ∈ trackArtistIds trackSelf' ∧ "A1" ∈ ["A1"] :=
  ⟨by decide, by decide, by decide⟩

/-- A track admits no seed artist when none of its truthy artist ids is in the
seed-artist list. -/
def NoSeedArtist (seedArtists : List String) (t : Track) : Prop :=
  ∀ aid ∈ trackArtistIds t, aid ∉ seedArtists

theorem trackArtistIds_update_match (t : Track) (m : ℚ) :
    trackArtistIds { t with lastfmMatch := some m } = trackArtistIds t := rfl

theorem trackArtistIds_fetchPreview (env : Env) (t : Track) :
    trackArtistIds (fetchPreviewIfMissing env t) = trackArtistIds t := by
  unfold fetchPreviewIfMissing
  split
  · rfl
  · cases h : env.fetchPreview (t.id.getD "") with
    | none => simp only [h]
    | some u =>
      simp only [h]
      split <;> rfl

theorem pickFirstNonSeed_sound (env : Env) (sa : List String) (m : ℚ) :
    ∀ (l : List Track) (t : Track), pickFirstNonSeed env sa m l = some t →
      NoSeedArtist sa t := by
  intro l
  induction l with
  | nil => intro t h; simp [pickFirstNonSeed] at h
  | cons x rest ih =>
    intro t h
    unfold pickFirstNonSeed at h
    by_cases h1 : pyTruthy x.id
    · by_cases h2 : (trackArtistIds x).any (fun aid => sa.contains aid)
      · simp only [h1, h2, Bool.not_true, Bool.false_eq_true, if_false, if_true] at h
        exact ih t h
      · simp only [h1, Bool.not_true, Bool.false_eq_true, if_false] at h
        rw [if_neg h2] at h
        obtain rfl := Option.some.inj h
        intro aid hmem
        rw [trackArtistIds_update_match, trackArtistIds_fetchPreview] at hmem
        simp only [List.any_eq_true, not_exists] at h2
        intro hin
        exact h2 aid ⟨hmem, by simp [hin]⟩
    · simp only [h1, Bool.not_false, if_true] at h
      exact ih t h

theorem pickFirstNonSeedPlain_sound (sa : List String) :
    ∀ (l : List Track) (t : Track), pickFirstNonSeedPlain sa l = some t →
      NoSeedArtist sa t := by
  intro l
  induction l with
  | nil => intro t h; simp [pickFirstNonSeedPlain] at h
  | cons x rest ih =>
    intro t h
    unfold pickFirstNonSeedPlain at h
    by_cases h1 : pyTruthy x.id
    · by_cases h2 : (trackArtistIds x).any (fun aid => sa.contains aid)
      · simp only [h1, h2, Bool.not_true, Bool.false_eq_true, if_false, if_true] at h
        exact ih t h
      · simp only [h1, Bool.not_true, Bool.false_eq_true, if_false] at h
        rw [if_neg h2] at h
        obtain rfl := Option.some.inj h
        intro aid hmem
        simp only [List.any_eq_true, not_exists] at h2
        intro hin
        exact h2 aid ⟨hmem, by simp [hin]⟩
    · simp only [h1, Bool.not_false, if_true] at h
      exact ih t h

theorem similar_fold_sound (env : Env) (sa : List String) (similar : SimilarArtist) :
    ∀ (lfm : List LfmTrack) (acc ts : List Track),
      (∀ t ∈ acc, NoSeedArtist sa t) →
      lfm.foldlM (similar_fold_step env sa similar) acc = .ok ts →
      ∀ t ∈ ts, NoSeedArtist sa t := by
  intro lfm
  induction lfm with
  | nil =>
    intro acc ts hacc h
    simp only [List.foldlM_nil] at h
    obtain rfl := Except.ok.inj h
    exact hacc
  | cons ti rest ih =>
    intro acc ts hacc h
    rw [List.foldlM_cons] at h
    cases hstep : similar_fold_step env sa similar acc ti with
    | error e => rw [hstep] at h; simp [Bind.bind, Except.bind] at h
    | ok acc' =>
      rw [hstep] at h
      simp only [Bind.bind, Except.bind] at h
      refine ih acc' ts ?_ h
      unfold similar_fold_step at hstep
      by_cases hn : ti.name.isEmpty
      · rw [if_pos hn] at hstep
        obtain rfl := Except.ok.inj hstep
        exact hacc
      · rw [if_neg hn] at hstep
        cases hsearch : env.searchTracks (ti.name ++ " " ++ similar.name) 2 with
        | error e => rw [hsearch] at hstep; simp [Bind.bind, Except.bind] at hstep
        | ok found =>
          rw [hsearch] at hstep
          simp only [Bind.bind, Except.bind] at hstep
          cases hpick : pickFirstNonSeed env sa similar.matchScore found with
          | none =>
            rw [hpick] at hstep
            obtain rfl := Except.ok.inj hstep
            exact hacc
          | some t' =>
            rw [hpick] at hstep
            obtain rfl := Except.ok.inj hstep
            intro t hmem
            rcases List.mem_append.mp hmem with hmem | hmem
            · exact hacc t hmem
            · obtain rfl := List.mem_singleton.mp hmem
              exact pickFirstNonSeed_sound env sa similar.matchScore found t hpick

theorem genre_artist_fold_sound (env : Env) (sa : List String) (artistName : String) :
    ∀ (lfm : List LfmTrack) (acc ts : List Track),
      (∀ t ∈ acc, NoSeedArtist sa t) →
      lfm.foldlM (genre_artist_fold_step env sa artistName) acc = .ok ts →
      ∀ t ∈ ts, NoSeedArtist sa t := by
  intro lfm
  induction lfm with
  | nil =>
    intro acc ts hacc h
    simp only [List.foldlM_nil] at h
    obtain rfl := Except.ok.inj h
    exact hacc
  | cons ti rest ih =>
    intro acc ts hacc h
    rw [List.foldlM_cons] at h
    cases hstep : genre_artist_fold_step env sa artistName acc ti with
    | error e => rw [hstep] at h; simp [Bind.bind, Except.bind] at h
    | ok acc' =>
      rw [hstep] at h
      simp only [Bind.bind, Except.bind] at h
      refine ih acc' ts ?_ h
      unfold genre_artist_fold_step at hstep
      by_cases hn : ti.name.isEmpty
      · rw [if_pos hn] at hstep
        obtain rfl := Except.ok.inj hstep
        exact hacc
      · rw [if_neg hn] at hstep
        cases hsearch : env.searchTracks (ti.name ++ " " ++ artistName) 2 with
        | error e => rw [hsearch] at hstep; simp [Bind.bind, Except.bind] at hstep
        | ok found =>
          rw [hsearch] at hstep
          simp only [Bind.bind, Except.bind] at hstep
          cases hpick : pickFirstNonSeedPlain sa found with
          | none =>
            rw [hpick] at hstep
            obtain rfl := Except.ok.inj hstep
            exact hacc
          | some t' =>
            rw [hpick] at hstep
            obtain rfl := Except.ok.inj hstep
            intro t hmem
            rcases List.mem_append.mp hmem with hmem | hmem
            · exact hacc t hmem
            · obtain rfl := List.mem_singleton.mp hmem
              exact pickFirstNonSeedPlain_sound sa found t hpick

theorem get_tracks_from_similar_sound (env : Env) (sa : List String) (artistName : String)
    (tpa : Nat) (similar : SimilarArtist) (t : Track)
    (h : t ∈ get_tracks_from_similar env sa artistName tpa similar) : NoSeedArtist sa t := by
  unfold get_tracks_from_similar at h
  split at h
  · simp at h
  · cases hb : get_tracks_from_similar_body env sa tpa similar with
    | error e => rw [hb] at h; simp at h
    | ok ts =>
      rw [hb] at h
      unfold get_tracks_from_similar_body at hb
      cases hl : env.getLastfmTopTracks similar.name tpa with
      | error e => rw [hl] at hb; simp [Bind.bind, Except.bind] at hb
      | ok lfm =>
        rw [hl] at hb
        simp only [Bind.bind, Except.bind] at hb
        exact similar_fold_sound env sa similar lfm [] ts (by simp) hb t h

theorem get_tracks_from_genre_artist_sound (env : Env) (sa : List String) (expand : Bool)
    (artistInfo : TagArtist) (t : Track)
    (h : t ∈ get_tracks_from_genre_artist env sa expand artistInfo) : NoSeedArtist sa t := by
  unfold get_tracks_from_genre_artist at h
  split at h
  · simp at h
  · cases hb : tracks_from_genre_artist_body env sa expand artistInfo.name with
    | error e => rw [hb] at h; simp at h
    | ok ts =>
      rw [hb] at h
      unfold tracks_from_genre_artist_body at hb
      cases hl : env.getLastfmTopTracks artistInfo.name (if expand then 5 else 3) with
      | error e => rw [hl] at hb; simp [Bind.bind, Except.bind] at hb
      | ok lfm =>
        rw [hl] at hb
        simp only [Bind.bind, Except.bind] at hb
        exact genre_artist_fold_sound env sa artistInfo.name lfm [] ts (by simp) hb t h

theorem fallback_add_sound (sa : List String) (limit : Nat) :
    ∀ (l : List Track) (st : MergeSt),
      (∀ t ∈ st.recs, NoSeedArtist sa t) →
      ∀ t ∈ (fallback_add sa limit st l).recs, NoSeedArtist sa t := by
  intro l
  induction l with
  | nil => intro st hst; exact hst
  | cons x rest ih =>
    intro st hst
    unfold fallback_add
    by_cases h1 : pyTruthy x.id && !st.seen.contains (x.id.getD "")
    · rw [if_pos h1]
      by_cases h2 : (trackArtistIds x).any (fun aid => sa.contains aid)
      · rw [if_pos h2]
        exact ih st hst
      · rw [if_neg h2]
        have hx : NoSeedArtist sa x := by
          intro aid hmem hin
          simp only [List.any_eq_true, not_exists] at h2
          exact h2 aid ⟨hmem, by simp [hin]⟩
        have hst' : ∀ t ∈ (⟨st.recs ++ [x], x.id.getD "" :: st.seen⟩ : MergeSt).recs,
            NoSeedArtist sa t := by
          intro t hmem
          rcases List.mem_append.mp hmem with hmem | hmem
          · exact hst t hmem
          · obtain rfl := List.mem_singleton.mp hmem
            exact hx
        dsimp only
        split
        · exact hst'
        · exact ih _ hst'
    · rw [if_neg h1]
      exact ih st hst

theorem process_artist_sound (env : Env) (sa : List String) (expand : Bool)
    (artistName : String) (t : Track) (h : t ∈ process_artist env sa expand artistName) :
    NoSeedArtist sa t := by
  unfold process_artist at h
  cases hs : env.getSimilarArtists artistName (if expand then 20 else 10) with
  | error e => rw [hs] at h; simp at h
  | ok similarArtists =>
    rw [hs] at h
    dsimp only at h
    by_cases he : similarArtists.isEmpty
    · rw [if_pos he] at h; simp at h
    · rw [if_neg he] at h
      obtain ⟨similar, _, hmem⟩ := List.mem_flatMap.mp h
      exact get_tracks_from_similar_sound env sa artistName _ similar t hmem

theorem process_genre_sound (env : Env) (sa : List String) (expand : Bool) (tag : String)
    (t : Track) (h : t ∈ process_genre env sa expand tag) : NoSeedArtist sa t := by
  unfold process_genre at h
  cases hs : env.getTagTopArtists tag (if expand then 20 else 10) with
  | error e => rw [hs] at h; simp at h
  | ok topArtists =>
    rw [hs] at h
    obtain ⟨artistInfo, _, hmem⟩ := List.mem_flatMap.mp h
    exact get_tracks_from_genre_artist_sound env sa expand artistInfo t hmem

theorem fallback_steps_sound (env : Env) (sa : List String) (limit tpg : Nat) :
    ∀ (genres : List String) (st : MergeSt),
      (∀ t ∈ st.recs, NoSeedArtist sa t) →
      ∀ t ∈ (genres.foldl (fallback_genre_step env sa limit tpg) st).recs,
        NoSeedArtist sa t := by
  intro genres
  induction genres with
  | nil => intro st hst; exact hst
  | cons g rest ih =>
    intro st hst
    rw [List.foldl_cons]
    refine ih (fallback_genre_step env sa limit tpg st g) ?_
    unfold fallback_genre_step
    split
    · exact hst
    · cases hs : env.searchTracks ("genre:\"" ++ g ++ "\" year:2020-2024") tpg with
      | error e => exact hst
      | ok tracks => exact fallback_add_sound sa limit tracks st hst

/-- C1 amended: the seed-artist filter is applied — and effective — on the
three candidate paths that implement it: the similar-artists cascade
(`process_artist`), the Last.fm tag path (`process_genre`) and the Spotify
search fallback (`_get_spotify_fallback_recommendations`); every track those
paths produce avoids every seed artist id.  The similar-tracks path and the
Spotify-recommendations top-up apply no such filter, and no final pass
re-applies it (see the counterexample), so the claim holds only for these
paths. -/
theorem seed_artist_filter_on_filtered_paths :
    (∀ (env : Env) (sa : List String) (expand : Bool) (artistName : String) (t : Track),
        t ∈ process_artist env sa expand artistName → NoSeedArtist sa t) ∧
      (∀ (env : Env) (sa : List String) (expand : Bool) (tag : String) (t : Track),
        t ∈ process_genre env sa expand tag → NoSeedArtist sa t) ∧
      (∀ (env : Env) (sa : List String) (limit : Nat) (expand : Bool) (t : Track),
        t ∈ spotify_fallback_recs env sa limit expand → NoSeedArtist sa t) := by
  refine ⟨process_artist_sound, process_genre_sound, ?_⟩
  intro env sa limit expand t h
  unfold spotify_fallback_recs at h
  exact fallback_steps_sound env sa limit _ _ ⟨[], []⟩ (by simp) t h

/-- A concrete run of the amended C1: the candidate produced by the
similar-artists path in `envC8` carries no seed-artist id. -/
theorem seed_artist_filter_on_filtered_paths_witness :
    trackB' ∈ process_artist envC8 ["A1", "A2"] false "Alpha" ∧
      NoSeedArtist ["A1", "A2"] trackB' :=
  ⟨by decide,
    seed_artist_filter_on_filtered_paths.1 envC8 ["A1", "A2"] false "Alpha" trackB'
      (by decide)⟩

theorem search_genre_envEmpty (gs : List String) (lim : Nat) (ev : Bool) (g : String) :
    search_genre envEmpty gs lim ev g = [] := rfl

theorem add_lists_capped_nils (limit : Nat) :
    ∀ (ls : List (List Track)) (st : MergeSt), (∀ l ∈ ls, l = []) →
      add_lists_capped limit st ls = st := by
  intro ls
  induction ls with
  | nil => intro st _; rfl
  | cons l rest ih =>
    intro st h
    have hl : l = [] := h l (by simp)
    subst hl
    unfold add_lists_capped
    dsimp only
    rw [show add_tracks_capped limit st [] = st from rfl]
    split
    · rfl
    · exact ih st (fun l hm => h l (by simp [hm]))

theorem genre_only_recs_envEmpty (sg : List String) (lim : Nat) (ev : Bool) :
    genre_only_recs envEmpty sg lim ev = [] := by
  unfold genre_only_recs
  dsimp only
  have h : ∀ l ∈ ((sg.take 5).map normalize_genre).map
      (search_genre envEmpty ((sg.take 5).map normalize_genre) lim ev), l = [] := by
    intro l hl
    obtain ⟨g, _, rfl⟩ := List.mem_map.mp hl
    exact search_genre_envEmpty _ _ _ _
  split
  · rw [add_lists_capped_nils lim _ _ h]
    simp [envEmpty]
  · simp [envEmpty]

theorem artistNamesOf_envEmpty (sa : List String) : artistNamesOf envEmpty sa = [] := by
  unfold artistNamesOf get_artist_name
  have hmap : (sa.take 3).map (fun aid =>
      match envEmpty.getArtistInfo aid with
      | some info => info.name.getD ""
      | none => "") = (sa.take 3).map (fun _ => "") :=
    List.map_congr_left (fun a _ => rfl)
  rw [hmap]
  generalize sa.take 3 = l
  induction l with
  | nil => rfl
  | cons a r ih =>
    rw [List.map_cons, List.filter_cons, if_neg (by decide)]
    exact ih

theorem seed_track_sim_step_envEmpty (limit : Nat) (ev : Bool) (st : MergeSt) (tid : String) :
    seed_track_sim_step envEmpty limit ev st tid = st := by
  unfold seed_track_sim_step
  split <;> rfl

theorem foldl_sts_envEmpty (limit : Nat) (ev : Bool) :
    ∀ (tids : List String) (st : MergeSt),
      List.foldl (seed_track_sim_step envEmpty limit ev) st tids = st := by
  intro tids
  induction tids with
  | nil => intro st; rfl
  | cons a r ih =>
    intro st
    rw [List.foldl_cons, seed_track_sim_step_envEmpty]
    exact ih st

theorem lastfm_recsE_envEmpty (sa stk : List String) (lim : Nat) (ev : Bool) :
    lastfm_recsE envEmpty sa stk lim ev = .ok [] := by
  unfold lastfm_recsE
  rw [artistNamesOf_envEmpty]
  simp only [List.length_nil, gt_iff_lt, Nat.lt_irrefl, if_false, List.isEmpty_nil,
    Bool.not_true, Bool.and_false, Bool.false_eq_true, foldl_sts_envEmpty]
  split <;> simp [sortByKeyDesc, Bind.bind, Except.bind, Pure.pure, Except.pure]

theorem spotify_fallback_envEmpty (sa : List String) (lim : Nat) (ev : Bool) :
    spotify_fallback_recs envEmpty sa lim ev = [] := by
  unfold spotify_fallback_recs
  dsimp only
  have h : (sa.take (if ev then 3 else 2)).flatMap
      (fun aid => (envEmpty.getArtistGenres aid).take (if ev then 3 else 2)) = [] := by
    induction sa.take (if ev then 3 else 2) with
    | nil => rfl
    | cons a r ih => simp [ih, envEmpty]
  rw [h]
  simp [dedupFirst]

theorem get_recommendations_with_envEmpty (sa stk sg : List String) (limit : Nat)
    (ex : List String) (sl : Nat) (ev : Bool) :
    get_recommendations_with envEmpty sa stk sg limit ex sl ev =
      { tracks := [], lastfm := false, spotify := false } := by
  unfold get_recommendations_with
  dsimp only
  split
  · rw [genre_only_recs_envEmpty]
    simp [exclude_filter]
  · split
    · rw [lastfm_recsE_envEmpty]
      dsimp only
      simp only [exclude_filter, List.filter_nil]
      split
      · rfl
      · unfold artist_branch_finish
        split
        · rw [spotify_fallback_envEmpty]
          simp [merge_new, merge_new_aux]
        · simp
    · split
      · rw [lastfm_recsE_envEmpty]
        dsimp only
        simp [exclude_filter]
      · rfl

/-- The search hit accepted by the similar-artists cascade in `envThrowMid`. -/
def trackKeepRaw : Track :=
  { id := some "K1"
    artists := some [{ id := some "Z", name := some "Other" }]
    previewUrl := some "p"
    lastfmMatch := none }

/-- `trackKeepRaw` tagged with its originating match score. -/
def trackKeep : Track := { trackKeepRaw with lastfmMatch := some 1 }

/-- Environment for the second half of C10: the cascade produces one
candidate, then the Spotify-recommendations top-up call (not wrapped in any
local `try` in the source) raises. -/
def envThrowMid : Env :=
  { envEmpty with
    getArtistInfo := fun aid => if aid = "A1" then some { name := some "Alpha" } else none
    getSimilarArtists := fun n _ =>
      if n = "Alpha" then .ok [{ name := "Other", matchScore := 1 }] else .error ()
    getLastfmTopTracks := fun n _ => if n = "Other" then .ok [{ name := "Song" }] else .error ()
    searchTracks := fun q _ => if q = "Song Other" then .ok [trackKeepRaw] else .error ()
    getArtistTags := fun _ _ => .ok [] }

/-- C10: `get_recommendations` never surfaces an exception.  First, even when
every provider call fails (`envEmpty`, in which the similarity and search
calls all raise), every call returns the empty result with both source flags
false.  Second, when an internal step raises midway — here the
Spotify-recommendations top-up of the artist branch, after the cascade
accumulated a track — the call still returns the accumulated tracks with the
sources flags rather than propagating. -/
theorem no_exception_to_caller :
    (∀ (sa stk sg : List String) (limit : Nat) (ex : List String) (ev : Bool),
        get_recommendations envEmpty sa stk sg limit ex ev =
          { tracks := [], lastfm := false, spotify := false }) ∧
      get_recommendations envThrowMid ["A1"] [] ["jazz"] 5 [] false =
        { tracks := [trackKeep], lastfm := true, spotify := false } := by
  constructor
  · intro sa stk sg limit ex ev
    unfold get_recommendations
    split <;> exact get_recommendations_with_envEmpty ..
  · decide

/-- A track carries no excluded id. -/
def NotExcluded (ex : List String) (t : Track) : Prop :=
  ∀ s : String, t.id = some s → s ∉ ex

theorem exclude_filter_sound (ex : List String) (l : List Track) :
    ∀ t ∈ exclude_filter ex l, NotExcluded ex t := by
  intro t ht
  obtain ⟨_, hp⟩ := List.mem_filter.mp ht
  intro s hid
  rw [hid] at hp
  simpa using hp

theorem mem_take_mem {α : Type} {l : List α} {n : Nat} {a : α} (h : a ∈ l.take n) : a ∈ l :=
  (List.take_sublist n l).mem h

theorem merge_new_aux_sound (ex : List String) :
    ∀ (inc acc : List Track) (existing : List (Option String)),
      (∀ t ∈ acc, NotExcluded ex t) →
      ∀ t ∈ merge_new_aux ex acc existing inc, NotExcluded ex t := by
  intro inc
  induction inc with
  | nil => intro acc existing hacc; exact hacc
  | cons x rest ih =>
    intro acc existing hacc
    unfold merge_new_aux
    by_cases hg : pyTruthy x.id && !existing.contains x.id && !ex.contains (x.id.getD "")
    · rw [if_pos hg]
      refine ih _ _ ?_
      intro t ht
      rcases List.mem_append.mp ht with ht | ht
      · exact hacc t ht
      · obtain rfl := List.mem_singleton.mp ht
        intro s hid
        simp only [Bool.and_eq_true] at hg
        have hx := hg.2
        rw [hid] at hx
        simpa using hx
    · rw [if_neg hg]
      exact ih _ _ hacc

theorem merge_new_sound (ex : List String) (tracks inc : List Track)
    (h : ∀ t ∈ tracks, NotExcluded ex t) :
    ∀ t ∈ merge_new ex tracks inc, NotExcluded ex t :=
  merge_new_aux_sound ex inc tracks _ h

theorem artist_branch_finish_sound (env : Env) (sa : List String) (sl limit : Nat)
    (ev : Bool) (ex : List String) (flag : Bool) (tracks2 : List Track)
    (h : ∀ t ∈ tracks2, NotExcluded ex t) :
    ∀ t ∈ (artist_branch_finish env sa sl limit ev ex flag tracks2).tracks,
      NotExcluded ex t := by
  unfold artist_branch_finish
  split
  · dsimp only
    intro t ht
    exact merge_new_sound ex tracks2 _ h t (mem_take_mem ht)
  · intro t ht
    exact h t (mem_take_mem ht)

theorem get_recommendations_with_excl (env : Env) (sa stk sg : List String) (limit : Nat)
    (ex : List String) (sl : Nat) (ev : Bool) :
    ∀ t ∈ (get_recommendations_with env sa stk sg limit ex sl ev).tracks,
      NotExcluded ex t := by
  unfold get_recommendations_with
  dsimp only
  split
  · intro t ht
    exact exclude_filter_sound ex _ t (mem_take_mem (mem_take_mem ht))
  · split
    · cases hl : lastfm_recsE env sa stk sl ev with
      | error e => intro t ht; simp at ht
      | ok ts0 =>
        dsimp only
        split
        · cases hs : env.spotifyRecs (sa.take 5) (sg.take 5)
              (sl - (exclude_filter ex ts0).length) with
          | error e =>
            intro t ht
            exact exclude_filter_sound ex ts0 t ht
          | ok genreTracks =>
            exact artist_branch_finish_sound env sa sl limit ev ex _ _
              (merge_new_sound ex _ genreTracks (exclude_filter_sound ex ts0))
        · exact artist_branch_finish_sound env sa sl limit ev ex _ _
            (exclude_filter_sound ex ts0)
    · split
      · cases hl : lastfm_recsE env sa stk sl ev with
        | error e => intro t ht; simp at ht
        | ok ts0 =>
          dsimp only
          intro t ht
          exact exclude_filter_sound ex ts0 t (mem_take_mem ht)
      · intro t ht
        simp at ht

/-- C4: exclusion respected — for every call and every track in the returned
list, the track's id is not in `exclude_track_ids`, in every strategy branch
(genre-only, artist-seeded including both top-up steps and the caught
exception paths, and track-only). -/
theorem exclusion_respected (env : Env) (sa stk sg : List String) (limit : Nat)
    (ex : List String) (ev : Bool) (t : Track)
    (hmem : t ∈ (get_recommendations env sa stk sg limit ex ev).tracks)
    (s : String) (hid : t.id = some s) : s ∉ ex := by
  unfold get_recommendations at hmem
  split at hmem
  · exact get_recommendations_with_excl env sa stk sg limit ex (limit * 3) true t hmem s hid
  · exact get_recommendations_with_excl env sa stk sg limit ex limit ev t hmem s hid

/-- A concrete run of C4: with `E9` excluded, the returned jazz track's id
`J1` is not in the exclude list. -/
theorem exclusion_respected_witness :
    trackJ ∈ (get_recommendations envC3 [] [] ["jazz"] 5 ["E9"] false).tracks ∧
      trackJ.id = some "J1" ∧ "J1" ∉ ["E9"] :=
  ⟨by decide, rfl,
    exclusion_respected envC3 [] [] ["jazz"] 5 ["E9"] false trackJ (by decide) "J1" rfl⟩

theorem artist_branch_finish_len (env : Env) (sa : List String) (sl limit : Nat)
    (ev : Bool) (ex : List String) (flag : Bool) (tracks2 : List Track) :
    (artist_branch_finish env sa sl limit ev ex flag tracks2).tracks.length ≤ limit := by
  unfold artist_branch_finish
  split
  · dsimp only
    exact List.length_take_le _ _
  · exact List.length_take_le _ _

theorem get_recommendations_with_len (env : Env) (sa stk sg : List String) (limit : Nat)
    (ex : List String) (sl : Nat) (ev : Bool) :
    (get_recommendations_with env sa stk sg limit ex sl ev).tracks.length ≤ limit := by
  unfold get_recommendations_with
  dsimp only
  split
  · exact List.length_take_le _ _
  · split
    · cases hl : lastfm_recsE env sa stk sl ev with
      | error e => simp
      | ok ts0 =>
        dsimp only
        split
        · rename_i hcond
          cases hs : env.spotifyRecs (sa.take 5) (sg.take 5)
              (sl - (exclude_filter ex ts0).length) with
          | error e =>
            simp only [Bool.and_eq_true, decide_eq_true_eq] at hcond
            exact Nat.le_of_lt hcond.1
          | ok genreTracks => exact artist_branch_finish_len ..
        · exact artist_branch_finish_len ..
    · split
      · cases hl : lastfm_recsE env sa stk sl ev with
        | error e => simp
        | ok ts0 =>
          dsimp only
          exact List.length_take_le _ _
      · simp

/-- C5: bound respected — for every call, the returned track list has length
at most `limit`; this includes the caught-exception paths (when a fully
failing provider leaves the accumulated result in place, it is still within
the bound, because the uncaught-throw points only fire while the accumulated
list is shorter than `limit`). -/
theorem bound_respected (env : Env) (sa stk sg : List String) (limit : Nat)
    (ex : List String) (ev : Bool) :
    (get_recommendations env sa stk sg limit ex ev).tracks.length ≤ limit := by
  unfold get_recommendations
  split
  · exact get_recommendations_with_len env sa stk sg limit ex (limit * 3) true
  · exact get_recommendations_with_len env sa stk sg limit ex limit ev

/-- The id projections of a track list are pairwise distinct. -/
def IdsOk (l : List Track) : Prop := (l.map (fun t => t.id)).Nodup

/-- The running invariant of every merge loop: the accumulated ids are
distinct, and each accumulated track's id is a string registered in the
`seen_track_ids` set. -/
def SeenInv (st : MergeSt) : Prop :=
  IdsOk st.recs ∧ ∀ t ∈ st.recs, ∃ s, t.id = some s ∧ s ∈ st.seen

theorem seenInv_empty : SeenInv ⟨[], []⟩ := ⟨by simp [IdsOk], by simp⟩

theorem seenInv_push (st : MergeSt) (t : Track) (s : String) (hid : t.id = some s)
    (hs : s ∉ st.seen) (h : SeenInv st) :
    SeenInv ⟨st.recs ++ [t], s :: st.seen⟩ := by
  constructor
  · unfold IdsOk
    rw [List.map_append, List.nodup_append]
    refine ⟨h.1, by simp, ?_⟩
    intro o ho ho'
    simp only [List.map_cons, List.map_nil, List.mem_singleton] at ho'
    subst ho'
    obtain ⟨t', ht', hido⟩ := List.mem_map.mp ho
    obtain ⟨s', hid', hseen'⟩ := h.2 t' ht'
    rw [hid', hid] at hido
    obtain rfl := Option.some.inj hido
    exact hs hseen'
  · intro t' ht'
    rcases List.mem_append.mp ht' with ht' | ht'
    · obtain ⟨s', hid', hseen'⟩ := h.2 t' ht'
      exact ⟨s', hid', List.mem_cons_of_mem _ hseen'⟩
    · obtain rfl := List.mem_singleton.mp ht'
      exact ⟨s, hid, List.mem_cons_self _ _⟩

theorem guard_destruct (st : MergeSt) (t : Track)
    (hg : (pyTruthy t.id && !st.seen.contains (t.id.getD "")) = true) :
    ∃ s, t.id = some s ∧ s ∉ st.seen ∧ t.id.getD "" = s := by
  cases ht : t.id with
  | none => rw [ht] at hg; simp [pyTruthy] at hg
  | some s =>
    rw [ht] at hg
    simp only [Option.getD_some, Bool.and_eq_true, Bool.not_eq_true'] at hg
    refine ⟨s, rfl, ?_, rfl⟩
    intro hmem
    have h2 := hg.2
    simp at h2
    exact h2 hmem

theorem add_tracks_capped_inv (limit : Nat) :
    ∀ (l : List Track) (st : MergeSt), SeenInv st → SeenInv (add_tracks_capped limit st l) := by
  intro l
  induction l with
  | nil => intro st h; exact h
  | cons t rest ih =>
    intro st h
    unfold add_tracks_capped
    by_cases hg : pyTruthy t.id && !st.seen.contains (t.id.getD "")
    · rw [if_pos hg]
      dsimp only
      obtain ⟨s, hid, hs, hgd⟩ := guard_destruct st t hg
      have hpush : SeenInv ⟨st.recs ++ [t], t.id.getD "" :: st.seen⟩ := by
        rw [hgd]
        exact seenInv_push st t s hid hs h
      split
      · exact hpush
      · exact ih _ hpush
    · rw [if_neg hg]
      exact ih st h

theorem add_lists_capped_inv (limit : Nat) :
    ∀ (ls : List (List Track)) (st : MergeSt), SeenInv st →
      SeenInv (add_lists_capped limit st ls) := by
  intro ls
  induction ls with
  | nil => intro st h; exact h
  | cons l rest ih =>
    intro st h
    unfold add_lists_capped
    dsimp only
    split
    · exact add_tracks_capped_inv limit l st h
    · exact ih _ (add_tracks_capped_inv limit l st h)

theorem addFirstUnseen_inv (m : ℚ) :
    ∀ (l : List Track) (st : MergeSt), SeenInv st → SeenInv (addFirstUnseen st m l) := by
  intro l
  induction l with
  | nil => intro st h; exact h
  | cons t rest ih =>
    intro st h
    unfold addFirstUnseen
    by_cases hg : pyTruthy t.id && !st.seen.contains (t.id.getD "")
    · rw [if_pos hg]
      obtain ⟨s, hid, hs, hgd⟩ := guard_destruct st t hg
      rw [hgd]
      exact seenInv_push st { t with lastfmMatch := some m } s hid hs h
    · rw [if_neg hg]
      exact ih st h

theorem seed_track_sim_inner_inv (env : Env) (limit : Nat) :
    ∀ (l : List SimilarTrack) (st : MergeSt), SeenInv st →
      SeenInv (seed_track_sim_inner env limit st l) := by
  intro l
  induction l with
  | nil => intro st h; exact h
  | cons s rest ih =>
    intro st h
    unfold seed_track_sim_inner
    split
    · exact h
    · split
      · exact ih st h
      · cases hs : env.searchTracks (s.name ++ " " ++ s.artist) 3 with
        | error e => exact h
        | ok found => exact ih _ (addFirstUnseen_inv s.matchScore found st h)

theorem seed_track_sim_step_inv (env : Env) (limit : Nat) (ev : Bool) (st : MergeSt)
    (tid : String) (h : SeenInv st) : SeenInv (seed_track_sim_step env limit ev st tid) := by
  unfold seed_track_sim_step
  split
  · exact h
  · split
    · exact h
    · exact h
    · split
      · exact h
      · split
        · exact h
        · exact seed_track_sim_inner_inv env limit _ st h

theorem foldl_seed_steps_inv (env : Env) (limit : Nat) (ev : Bool) :
    ∀ (tids : List String) (st : MergeSt), SeenInv st →
      SeenInv (tids.foldl (seed_track_sim_step env limit ev) st) := by
  intro tids
  induction tids with
  | nil => intro st h; exact h
  | cons a rest ih =>
    intro st h
    rw [List.foldl_cons]
    exact ih _ (seed_track_sim_step_inv env limit ev st a h)

theorem add_tracks_uncapped_inv :
    ∀ (ts : List Track) (st : MergeSt), SeenInv st → SeenInv (add_tracks_uncapped st ts) := by
  intro ts
  induction ts with
  | nil => intro st h; exact h
  | cons t rest ih =>
    intro st h
    unfold add_tracks_uncapped
    rw [List.foldl_cons]
    have hstep : SeenInv (if pyTruthy t.id && !st.seen.contains (t.id.getD "") then
        (⟨st.recs ++ [t], t.id.getD "" :: st.seen⟩ : MergeSt) else st) := by
      by_cases hg : pyTruthy t.id && !st.seen.contains (t.id.getD "")
      · rw [if_pos hg]
        obtain ⟨s, hid, hs, hgd⟩ := guard_destruct st t hg
        rw [hgd]
        exact seenInv_push st t s hid hs h
      · rw [if_neg hg]
        exact h
    exact ih _ hstep

theorem IdsOk_take (n : Nat) {l : List Track} (h : IdsOk l) : IdsOk (l.take n) := by
  unfold IdsOk at h ⊢
  rw [List.map_take]
  exact List.Nodup.sublist (List.take_sublist _ _) h

theorem IdsOk_filter (p : Track → Bool) {l : List Track} (h : IdsOk l) :
    IdsOk (l.filter p) := by
  unfold IdsOk at h ⊢
  exact List.Nodup.sublist (List.Sublist.map _ (List.filter_sublist l)) h

theorem IdsOk_perm {l1 l2 : List Track} (hp : l1.Perm l2) (h : IdsOk l2) : IdsOk l1 := by
  unfold IdsOk at h ⊢
  exact ((hp.map (fun t => t.id)).nodup_iff).mpr h

theorem IdsOk_sort (k : Track → ℚ) {l : List Track} (h : IdsOk l) :
    IdsOk (sortByKeyDesc k l) :=
  IdsOk_perm (sortByKeyDesc_perm k l) h

theorem IdsOk_nil : IdsOk [] := by simp [IdsOk]

theorem merge_new_aux_idsok (ex : List String) :
    ∀ (inc acc : List Track) (existing : List (Option String)),
      IdsOk acc → (∀ o ∈ acc.map (fun t => t.id), o ∈ existing) →
      IdsOk (merge_new_aux ex acc existing inc) := by
  intro inc
  induction inc with
  | nil => intro acc existing hacc _; exact hacc
  | cons t rest ih =>
    intro acc existing hacc hsub
    unfold merge_new_aux
    by_cases hg : pyTruthy t.id && !existing.contains t.id && !ex.contains (t.id.getD "")
    · rw [if_pos hg]
      simp only [Bool.and_eq_true, Bool.not_eq_true'] at hg
      have hnotex : t.id ∉ existing := by
        have := hg.1.2
        simp at this
        exact this
      have hnotacc : t.id ∉ acc.map (fun t => t.id) := fun hmem => hnotex (hsub _ hmem)
      refine ih _ _ ?_ ?_
      · unfold IdsOk at hacc ⊢
        rw [List.map_append, List.nodup_append]
        refine ⟨hacc, by simp, ?_⟩
        intro o ho ho'
        simp only [List.map_cons, List.map_nil, List.mem_singleton] at ho'
        subst ho'
        exact hnotacc ho
      · intro o ho
        rw [List.map_append] at ho
        rcases List.mem_append.mp ho with ho | ho
        · exact List.mem_cons_of_mem _ (hsub _ ho)
        · simp only [List.map_cons, List.map_nil, List.mem_singleton] at ho
          subst ho
          exact List.mem_cons_self _ _
    · rw [if_neg hg]
      exact ih _ _ hacc hsub

theorem merge_new_idsok (ex : List String) (tracks inc : List Track) (h : IdsOk tracks) :
    IdsOk (merge_new ex tracks inc) :=
  merge_new_aux_idsok ex inc tracks _ h (fun _ ho => ho)

theorem artist_branch_finish_idsok (env : Env) (sa : List String) (sl limit : Nat)
    (ev : Bool) (ex : List String) (flag : Bool) (tracks2 : List Track)
    (h : IdsOk tracks2) :
    IdsOk (artist_branch_finish env sa sl limit ev ex flag tracks2).tracks := by
  unfold artist_branch_finish
  split
  · dsimp only
    exact IdsOk_take _ (merge_new_idsok ex tracks2 _ h)
  · exact IdsOk_take _ h

theorem lastfm_recsE_idsok (env : Env) (sa stk : List String) (lim : Nat) (ev : Bool)
    (ts : List Track) (h : lastfm_recsE env sa stk lim ev = .ok ts) : IdsOk ts := by
  unfold lastfm_recsE at h
  dsimp only at h
  set st1 := if (artistNamesOf env sa).length > 0 then
      add_lists_capped lim ⟨[], []⟩
        (List.map (process_artist env sa ev) (artistNamesOf env sa))
    else ⟨[], []⟩ with hst1
  set st2 := if !stk.isEmpty && st1.recs.length < lim then
      (stk.take (if ev then 5 else 3)).foldl (seed_track_sim_step env lim ev) st1
    else st1 with hst2
  have hinv1 : SeenInv st1 := by
    rw [hst1]
    split
    · exact add_lists_capped_inv lim _ _ seenInv_empty
    · exact seenInv_empty
  have hinv2 : SeenInv st2 := by
    rw [hst2]
    split
    · exact foldl_seed_steps_inv env lim ev _ st1 hinv1
    · exact hinv1
  split at h
  · cases hgb : genre_based_recsE env (artistNamesOf env sa) sa
        (if ev then (lim - st2.recs.length) * 2 else lim - st2.recs.length) ev with
    | error e => rw [hgb] at h; simp [Bind.bind, Except.bind] at h
    | ok gts =>
      rw [hgb] at h
      simp only [Bind.bind, Except.bind, Pure.pure, Except.pure, Except.ok.injEq] at h
      subst h
      exact IdsOk_take _ (IdsOk_sort _ (add_tracks_uncapped_inv gts st2 hinv2).1)
  · simp only [Bind.bind, Except.bind, Pure.pure, Except.pure, Except.ok.injEq] at h
    subst h
    exact IdsOk_take _ (IdsOk_sort _ hinv2.1)

theorem genre_only_recs_idsok (env : Env) (sg : List String) (lim : Nat) (ev : Bool)
    (hsh : ∀ l, (env.shuffle l).Perm l) : IdsOk (genre_only_recs env sg lim ev) := by
  unfold genre_only_recs
  dsimp only
  apply IdsOk_take
  refine IdsOk_perm (hsh _) ?_
  split
  · exact (add_lists_capped_inv lim _ _ seenInv_empty).1
  · exact IdsOk_nil

theorem get_recommendations_with_idsok (env : Env) (sa stk sg : List String) (limit : Nat)
    (ex : List String) (sl : Nat) (ev : Bool) (hsh : ∀ l, (env.shuffle l).Perm l) :
    IdsOk (get_recommendations_with env sa stk sg limit ex sl ev).tracks := by
  unfold get_recommendations_with
  dsimp only
  split
  · exact IdsOk_take _ (IdsOk_take _ (IdsOk_filter _ (genre_only_recs_idsok env sg sl ev hsh)))
  · split
    · cases hl : lastfm_recsE env sa stk sl ev with
      | error e => exact IdsOk_nil
      | ok ts0 =>
        dsimp only
        have hts0 : IdsOk (exclude_filter ex ts0) :=
          IdsOk_filter _ (lastfm_recsE_idsok env sa stk sl ev ts0 hl)
        split
        · cases hs : env.spotifyRecs (sa.take 5) (sg.take 5)
              (sl - (exclude_filter ex ts0).length) with
          | error e => exact hts0
          | ok genreTracks =>
            exact artist_branch_finish_idsok env sa sl limit ev ex _ _
              (merge_new_idsok ex _ genreTracks hts0)
        · exact artist_branch_finish_idsok env sa sl limit ev ex _ _ hts0
    · split
      · cases hl : lastfm_recsE env sa stk sl ev with
        | error e => exact IdsOk_nil
        | ok ts0 =>
          dsimp only
          exact IdsOk_take _ (IdsOk_filter _ (lastfm_recsE_idsok env sa stk sl ev ts0 hl))
      · exact IdsOk_nil

/-- C6: dedup — for every call (with `random.shuffle` behaving as a
permutation), the returned track list contains no two tracks with the same
`id` value: the cascade's `seen_track_ids` set, the genre top-up merge and
the Spotify-fallback merge each keep the accumulated ids distinct, and
sorting, shuffling, filtering and truncation preserve that. -/
theorem dedup_no_duplicate_ids (env : Env) (sa stk sg : List String) (limit : Nat)
    (ex : List String) (ev : Bool) (hsh : ∀ l, (env.shuffle l).Perm l) :
    ((get_recommendations env sa stk sg limit ex ev).tracks.map (fun t => t.id)).Nodup := by
  unfold get_recommendations
  split
  · exact get_recommendations_with_idsok env sa stk sg limit ex (limit * 3) true hsh
  · exact get_recommendations_with_idsok env sa stk sg limit ex limit ev hsh

/-- A concrete run of C6 (identity shuffle): the returned ids are distinct. -/
theorem dedup_no_duplicate_ids_witness :
    ((get_recommendations envC3 [] [] ["jazz"] 5 [] false).tracks.map
      (fun t => t.id)).Nodup :=
  dedup_no_duplicate_ids envC3 [] [] ["jazz"] 5 [] false (fun l => List.Perm.refl l)
